import Mathlib

/-!
Verification of the trackwatch derived-artifact pipeline (src/colors.rs,
src/cache.rs, src/display/formatter.rs) against its specification.

Modelling conventions:
- u8 / u64 machine integers are `Nat` (arithmetic stays in range or is
  clamped exactly where the source clamps).
- f32 arithmetic is modelled as exact real arithmetic over `ℝ`; `powf 2.4`
  becomes `Real.rpow`.  Sub-ulp IEEE rounding effects are outside the model.
- Filesystem effects are explicit state: the cache file a `get` touches is an
  `Option CacheFile` value, a directory is a list of (name, size) entries.
- Loops of the source become structural recursions that mirror the loop body
  statement by statement (push then break-check, etc.).
-/

namespace Trackwatch

/-- RGB triple of u8 channels, as in `(u8, u8, u8)` of the source. -/
abbrev RGB := Nat × Nat × Nat

/-- Color palette, from `ColorPalette` in src/colors.rs. -/
structure ColorPalette where
  progress_colors : List RGB
  info_colors : List RGB
deriving DecidableEq

/-- WCAG channel linearisation, from `ColorExtractor::srgb_to_linear`
(threshold 0.03928, exponent 2.4). -/
noncomputable def srgb_to_linear (value : ℝ) : ℝ :=
  if value ≤ 0.03928 then value / 12.92 else ((value + 0.055) / 1.055) ^ (2.4 : ℝ)

/-- WCAG relative luminance, from `ColorExtractor::relative_luminance`. -/
noncomputable def relative_luminance (color : RGB) : ℝ :=
  0.2126 * srgb_to_linear (color.1 / 255)
    + 0.7152 * srgb_to_linear (color.2.1 / 255)
    + 0.0722 * srgb_to_linear (color.2.2 / 255)

/-- WCAG contrast ratio, from `ColorExtractor::contrast_ratio`. -/
noncomputable def contrast_ratio (color1 color2 : RGB) : ℝ :=
  let lum1 := relative_luminance color1
  let lum2 := relative_luminance color2
  (max lum1 lum2 + 0.05) / (min lum1 lum2 + 0.05)

/-- Channel-average brightness, from `ColorExtractor::calculate_brightness`. -/
noncomputable def calculate_brightness (color : RGB) : ℝ :=
  ((color.1 : ℝ) + color.2.1 + color.2.2) / (3 * 255)

/-- Integer brightness key: the channel sum.  Comparing keys is equivalent to
comparing `calculate_brightness` values (division by the positive constant
3*255 is strictly monotone, and the f32 sums up to 765 are exact). -/
def brightnessKey (color : RGB) : Nat := color.1 + color.2.1 + color.2.2

/-- Brightness order used by `ColorExtractor::sort_by_brightness`. -/
def brightness_le (a b : RGB) : Prop := brightnessKey a ≤ brightnessKey b

instance : DecidableRel brightness_le := fun a b => Nat.decLe _ _

instance : IsTotal RGB brightness_le := ⟨fun a b => Nat.le_total _ _⟩

instance : IsTrans RGB brightness_le := ⟨fun _ _ _ h h2 => Nat.le_trans h h2⟩

instance : IsRefl RGB brightness_le := ⟨fun _ => Nat.le_refl _⟩

/-- Stable sort by ascending brightness, from
`ColorExtractor::sort_by_brightness` (Rust `sort_by` is a stable sort; so is
insertion sort, hence they agree on every input). -/
def sort_by_brightness (colors : List RGB) : List RGB :=
  List.insertionSort brightness_le colors

/-- Truncating saturating cast of a nonnegative real, Rust `as u8` on f32. -/
noncomputable def trunc_u8 (x : ℝ) : Nat := min (Int.toNat ⌊x⌋) 255

/-- Minimum-brightness enforcement, from
`ColorExtractor::ensure_min_brightness`. -/
noncomputable def ensure_min_brightness (color : RGB) (min_value : Nat) : RGB :=
  let r := color.1
  let g := color.2.1
  let b := color.2.2
  if min_value ≤ r ∨ min_value ≤ g ∨ min_value ≤ b then
    (max r (min_value / 2), max g (min_value / 2), max b (min_value / 2))
  else
    let max_channel := max r (max g b)
    if max_channel = 0 then
      (min_value, min_value, min_value)
    else
      let scale : ℝ := (min_value : ℝ) / max_channel
      (trunc_u8 (r * scale), trunc_u8 (g * scale), trunc_u8 (b * scale))

/-- Dark terminal background reference used for info-color contrast. -/
def dark_bg : RGB := (20, 20, 20)

open Classical in
/-- Acceptance test of the first info-color selection stage:
contrast against the dark background is at least 7.0. -/
noncomputable def pass_info (c : RGB) : Bool :=
  decide ((7 : ℝ) ≤ contrast_ratio c dark_bg)

/-- First info-color stage of `ColorExtractor::extract_palette`: walk the
candidates (brightest first), push every candidate passing the contrast test,
and break once the pushed count has reached `info_count`.  The push happens
before the count check, exactly as in the source. -/
noncomputable def info_stage1 : List RGB → Nat → List RGB → List RGB
  | [], _, acc => acc
  | c :: rest, info_count, acc =>
    if pass_info c then
      if info_count ≤ acc.length + 1 then acc ++ [c]
      else info_stage1 rest info_count (acc ++ [c])
    else info_stage1 rest info_count acc

/-- Second info-color stage: walk the given candidates, brighten each with
`ensure_min_brightness _ 180` and push unconditionally, breaking once the
count reaches `info_count`. -/
noncomputable def info_stage2 : List RGB → Nat → List RGB → List RGB
  | [], _, acc => acc
  | c :: rest, info_count, acc =>
    if info_count ≤ acc.length + 1 then acc ++ [ensure_min_brightness c 180]
    else info_stage2 rest info_count (acc ++ [ensure_min_brightness c 180])

/-- Static fallback info colors of `ColorExtractor::extract_palette`. -/
def info_defaults : List RGB :=
  [(255, 255, 255), (200, 200, 255), (255, 200, 200), (200, 255, 200), (255, 255, 200)]

/-- Final fallback loop, unrolled on the exact number of missing slots.  Each
pass of the source loop pushes `defaults[len]` when it exists; when
`defaults.get(len)` is `None` while `len < info_count` the source loop spins
forever without changing state, which this model renders as stopping with the
state unchanged (the situation is unreachable from `extract_palette`, where
clustering always supplies at least `info_count` candidates). -/
def info_fallback_go (info_count : Nat) : Nat → List RGB → List RGB
  | 0, acc => acc
  | fuel + 1, acc =>
    if acc.length < info_count then
      match info_defaults[acc.length]? with
      | some c => info_fallback_go info_count fuel (acc ++ [c])
      | none => acc
    else acc

/-- Final fallback loop of the info-color selection. -/
def info_fallback (info_count : Nat) (acc : List RGB) : List RGB :=
  info_fallback_go info_count (info_count - acc.length) acc

/-- Progress color base selection: darkest, middle, lightest of the sorted
cluster colors, or the static gradient when fewer than 3 colors exist. -/
def select_progress_base (colors : List RGB) : List RGB :=
  if 3 ≤ colors.length then
    [colors.getD 0 (0, 0, 0), colors.getD (colors.length / 2) (0, 0, 0),
      colors.getD (colors.length - 1) (0, 0, 0)]
  else
    [(50, 50, 50), (128, 128, 128), (200, 200, 200)]

open Classical in
/-- Progress color post-processing: if contrast against pure black is below
2.0, add 100 to every channel, clamped to 255 (u16 arithmetic in the source,
so no overflow). -/
noncomputable def fix_progress (c : RGB) : RGB :=
  if contrast_ratio c (0, 0, 0) < 2 then
    (min (c.1 + 100) 255, min (c.2.1 + 100) 255, min (c.2.2 + 100) 255)
  else c

open Classical in
/-- Palette selection part of `ColorExtractor::extract_palette`: everything
after clustering, as a function of the clustered colors.  Mirrors the source:
sort by brightness, run the three info stages, select and post-process the
progress colors. -/
noncomputable def select_palette (colors0 : List RGB) (info_count : Nat) : ColorPalette :=
  let colors := sort_by_brightness colors0
  let s1 := info_stage1 colors.reverse info_count []
  let s2 :=
    if s1.length < info_count then
      info_stage2 (colors.reverse.drop s1.length) info_count s1
    else s1
  let s3 := info_fallback info_count s2
  { progress_colors := (select_progress_base colors).map fix_progress
    info_colors := s3 }

open Classical in
/-- Closed form of the info-color selection actually computed by the source:
stage 1 keeps the passing candidates, brightest first (one candidate when
`info_count = 0`, because the push precedes the count check); stage 2, when
stage 1 came up short with `a` accepted, continues over the reversed list with
the first `a` entries dropped — the `a` brightest candidates, whether or not
they were the accepted ones; the fallback list fills any remaining slots. -/
noncomputable def info_closed_form (colors0 : List RGB) (info_count : Nat) : List RGB :=
  let rev := (sort_by_brightness colors0).reverse
  let s1 := (rev.filter pass_info).take (max info_count 1)
  let s2 :=
    if s1.length < info_count then
      s1 ++ ((rev.drop s1.length).map (fun c => ensure_min_brightness c 180)).take
        (info_count - s1.length)
    else s1
  s2 ++ (info_defaults.drop s2.length).take (info_count - s2.length)

open Classical in
/-- Modelled from the claim wording: stage 2 is said to continue over exactly
the remaining unaccepted candidates (those failing the contrast test), in
brightest-to-darkest order, brightening each.  Stated here for comparison
with what the code computes. -/
noncomputable def info_colors_claimed (colors0 : List RGB) (info_count : Nat) : List RGB :=
  let rev := (sort_by_brightness colors0).reverse
  let s1 := (rev.filter pass_info).take (max info_count 1)
  let s2 :=
    if s1.length < info_count then
      s1 ++ ((rev.filter (fun c => !pass_info c)).map
        (fun c => ensure_min_brightness c 180)).take (info_count - s1.length)
    else s1
  s2 ++ (info_defaults.drop s2.length).take (info_count - s2.length)

/-! Perceptual color space and clustering (src/colors.rs, Lab based). -/

/-- CIE Lab color, the `palette::Lab` values of the source as exact reals. -/
structure Lab where
  l : ℝ
  a : ℝ
  b : ℝ

/-- Default Lab value used where the source indexes a list it knows to be
nonempty. -/
def lab0 : Lab := ⟨0, 0, 0⟩

/-- Standard sRGB decoding (threshold 0.04045), as in the palette crate used
for the RGB→Lab conversion of `sample_pixels`. -/
noncomputable def srgb_decode (v : ℝ) : ℝ :=
  if v ≤ 0.04045 then v / 12.92 else ((v + 0.055) / 1.055) ^ (2.4 : ℝ)

/-- CIE Lab forward companding function f. -/
noncomputable def lab_f (t : ℝ) : ℝ :=
  if 216 / 24389 < t then t ^ ((1 : ℝ) / 3) else (841 * t) / 108 + 4 / 29

/-- RGB (u8 channels) to CIE Lab with D65 white point, the conversion
performed by `Lab::from_color(Srgb::new(..))` in `sample_pixels`. -/
noncomputable def rgb_to_lab (r g b : Nat) : Lab :=
  let rl := srgb_decode ((r : ℝ) / 255)
  let gl := srgb_decode ((g : ℝ) / 255)
  let bl := srgb_decode ((b : ℝ) / 255)
  let x := (0.4124564 * rl + 0.3575761 * gl + 0.1804375 * bl) / 0.95047
  let y := 0.2126729 * rl + 0.7151522 * gl + 0.0721750 * bl
  let z := (0.0193339 * rl + 0.1191920 * gl + 0.9503041 * bl) / 1.08883
  ⟨116 * lab_f y - 16, 500 * (lab_f x - lab_f y), 200 * (lab_f y - lab_f z)⟩

/-- CIE Lab inverse companding function. -/
noncomputable def lab_finv (t : ℝ) : ℝ :=
  if 6 / 29 < t then t ^ 3 else 3 * (6 / 29) ^ 2 * (t - 4 / 29)

/-- Standard sRGB gamma encoding, inverse of `srgb_decode`. -/
noncomputable def gamma_encode (c : ℝ) : ℝ :=
  if c ≤ 0.0031308 then 12.92 * c else 1.055 * c ^ ((1 : ℝ) / 2.4) - 0.055

/-- Rounding saturating cast of a real to u8, Rust `.round() as u8`. -/
noncomputable def round_u8 (x : ℝ) : Nat := min (Int.toNat (round x)) 255

/-- Lab back to RGB bytes, the `Srgb::from_color` + `(c * 255.0).round() as u8`
step at the end of `k_means_clustering`. -/
noncomputable def lab_to_rgb (lab : Lab) : RGB :=
  let fy := (lab.l + 16) / 116
  let fx := fy + lab.a / 500
  let fz := fy - lab.b / 200
  let x := 0.95047 * lab_finv fx
  let y := lab_finv fy
  let z := 1.08883 * lab_finv fz
  let rl := 3.2404542 * x - 1.5371385 * y - 0.4985314 * z
  let gl := -0.9692660 * x + 1.8760108 * y + 0.0415560 * z
  let bl := 0.0556434 * x - 0.2040259 * y + 1.0572252 * z
  (round_u8 (gamma_encode rl * 255), round_u8 (gamma_encode gl * 255),
    round_u8 (gamma_encode bl * 255))

/-- Euclidean Lab distance, from `ColorExtractor::color_distance`. -/
noncomputable def color_distance (a b : Lab) : ℝ :=
  Real.sqrt ((a.l - b.l) * (a.l - b.l) + (a.a - b.a) * (a.a - b.a)
    + (a.b - b.b) * (a.b - b.b))

open Classical in
/-- Index of the first minimum (Rust `min_by` keeps the first of equal
elements), over a list of remaining values with a current best. -/
noncomputable def argmin_go : List ℝ → Nat → ℝ → Nat → Nat
  | [], _, _, best => best
  | x :: rest, i, bv, best =>
    if x < bv then argmin_go rest (i + 1) x i else argmin_go rest (i + 1) bv best

open Classical in
/-- Index of the last maximum (Rust `max_by` keeps the last of equal
elements). -/
noncomputable def argmax_go : List ℝ → Nat → ℝ → Nat → Nat
  | [], _, _, best => best
  | x :: rest, i, bv, best =>
    if bv ≤ x then argmax_go rest (i + 1) x i else argmax_go rest (i + 1) bv best

/-- Nearest-centroid index, from `ColorExtractor::find_nearest_centroid`
(`unwrap_or(0)` on an empty centroid list). -/
noncomputable def find_nearest_centroid (pixel : Lab) (centroids : List Lab) : Nat :=
  match centroids.map (color_distance pixel) with
  | [] => 0
  | d :: ds => argmin_go ds 1 d 0

/-- The f32 maximum value used to initialise the distance array. -/
noncomputable def F32_MAX : ℝ := (2 - 2 ^ (-23 : ℤ)) * 2 ^ (127 : ℕ)

/-- Minimum distance from a pixel to any chosen centroid, starting from
`f32::MAX` as in `initialize_centroids`. -/
noncomputable def min_dist_to (centroids : List Lab) (pixel : Lab) : ℝ :=
  centroids.foldl (fun acc c => min acc (color_distance pixel c)) F32_MAX

/-- Farthest-point k-means++ initialisation, from
`ColorExtractor::initialize_centroids`: the first sample seeds the list, then
k-1 further picks each maximise the minimum distance to the chosen centroids
(`unwrap_or(0)` on an empty distance list). -/
noncomputable def initialize_centroids (pixels : List Lab) (k : Nat) : List Lab :=
  (List.range (k - 1)).foldl
    (fun centroids _ =>
      let distances := pixels.map (min_dist_to centroids)
      let max_idx :=
        match distances with
        | [] => 0
        | d :: ds => argmax_go ds 1 d 0
      centroids ++ [pixels.getD max_idx lab0])
    [pixels.getD 0 lab0]

/-- Centroid update, from `ColorExtractor::update_centroids`: each centroid
becomes the mean of its assigned pixels; centroids with no assigned pixel
keep their previous value. -/
noncomputable def update_centroids (pixels : List Lab) (assignments : List Nat)
    (centroids : List Lab) : List Lab :=
  (centroids.zip (List.range centroids.length)).map (fun ci =>
    let members := (pixels.zip assignments).filterMap
      (fun pa => if pa.2 = ci.2 then some pa.1 else none)
    if members.length = 0 then ci.1
    else
      ⟨(members.map Lab.l).sum / members.length,
        (members.map Lab.a).sum / members.length,
        (members.map Lab.b).sum / members.length⟩)

/-- The bounded k-means loop of `k_means_clustering`: up to `fuel` assignment
passes; stop early (without updating centroids) when no assignment changed,
otherwise update the centroids and continue. -/
noncomputable def kmeans_iter : Nat → List Lab → List Lab → List Nat → List Lab
  | 0, _, centroids, _ => centroids
  | fuel + 1, pixels, centroids, assignments =>
    let newAssignments := pixels.map (fun p => find_nearest_centroid p centroids)
    if newAssignments = assignments then centroids
    else kmeans_iter fuel pixels (update_centroids pixels newAssignments centroids) newAssignments

/-- Full clustering, from `ColorExtractor::k_means_clustering`: gray fallback
on empty input, otherwise k-means++ seeding, at most 50 iterations, then
conversion of the centroids back to RGB.  The source wraps the result in
`Ok`; it never returns an error. -/
noncomputable def k_means_clustering (pixels : List Lab) (k : Nat) : List RGB :=
  if pixels.isEmpty then List.replicate k (128, 128, 128)
  else
    (kmeans_iter 50 pixels (initialize_centroids pixels k)
      (List.replicate pixels.length 0)).map lab_to_rgb

/-! Image sampling (src/colors.rs `sample_pixels`). -/

/-- RGBA pixel of u8 channels. -/
structure RGBA where
  r : Nat
  g : Nat
  b : Nat
  a : Nat

/-- Decoded image: dimensions plus a pixel lookup, the `DynamicImage`
interface `sample_pixels` consumes. -/
structure Image where
  width : Nat
  height : Nat
  pix : Nat → Nat → RGBA

/-- Indices visited by `(0..bound).step_by(step)`. -/
def stepRange (bound step : Nat) : List Nat :=
  List.range' 0 ((bound + step - 1) / step) step

/-- Grid sampling with transparency and near-black filtering, from
`ColorExtractor::sample_pixels`.  The stride is
`max(1, sqrt(width*height) as u32 / 20)`; `Nat.sqrt` (floor of the exact
square root) stands in for the correctly rounded f32 sqrt, which can differ
by one only when `width*height` is within half an ulp of a perfect square. -/
noncomputable def sample_pixels (img : Image) : List Lab :=
  let step := max (Nat.sqrt (img.width * img.height) / 20) 1
  (stepRange img.height step).flatMap (fun y =>
    (stepRange img.width step).filterMap (fun x =>
      let p := img.pix x y
      if p.a < 128 ∨ (p.r < 20 ∧ p.g < 20 ∧ p.b < 20) then none
      else some (rgb_to_lab p.r p.g p.b)))

/-- Full palette extraction, from `ColorExtractor::extract_palette`: sample,
cluster `progress_count + info_count + 2` colors, then select.  The source
returns `Ok` of this palette unconditionally (its only `?` is on
`k_means_clustering`, which never errors). -/
noncomputable def extract_palette (img : Image) (progress_count info_count : Nat) : ColorPalette :=
  select_palette (k_means_clustering (sample_pixels img) (progress_count + info_count + 2))
    info_count

/-! Cache model (src/cache.rs). -/

/-- Pixel-block rendering, from `PixelatedImage` in src/display. -/
structure PixelatedImage where
  lines : List String
deriving DecidableEq

/-- Raw RGB grid, from `RatatuiImage` in src/display. -/
structure RatatuiImage where
  pixels : List (List RGB)
deriving DecidableEq

/-- Cache entry, from `CachedImage` in src/cache.rs. -/
structure CachedImage where
  pixelated : PixelatedImage
  ratatui : RatatuiImage
  color_palette : ColorPalette
  cached_at : Nat
deriving DecidableEq

/-- Cache TTL in days, `CACHE_EXPIRY_DAYS`. -/
def CACHE_EXPIRY_DAYS : Nat := 30

/-- Expiry test, from `ImageCache::is_expired`: future timestamps are never
expired; otherwise the age in whole days (integer division by 86400 seconds)
must exceed the TTL. -/
def is_expired (now cached_at : Nat) : Bool :=
  if now < cached_at then false
  else decide (CACHE_EXPIRY_DAYS < (now - cached_at) / (60 * 60 * 24))

/-- State of the on-disk cache file for one key: it can be missing, present
but unreadable (`fs::read_to_string` fails), present but not valid JSON for
`CachedImage` (`serde_json::from_str` fails), or a parsed entry. -/
inductive CacheFile where
  | unreadable : CacheFile
  | malformed : String → CacheFile
  | valid : CachedImage → CacheFile

/-- Lookup, from `ImageCache::get`, as a function of the state of the cache
file for the requested key and of the current time.  Returns the lookup
result together with the state of the file afterwards (`none` = deleted or
absent).  Mirrors the source: missing file → miss; read failure → miss with
the file left in place; parse failure → miss and delete; expired → miss and
delete; otherwise hit. -/
def cache_get (file : Option CacheFile) (now : Nat) : Option CachedImage × Option CacheFile :=
  match file with
  | none => (none, none)
  | some CacheFile.unreadable => (none, some CacheFile.unreadable)
  | some (CacheFile.malformed _) => (none, none)
  | some (CacheFile.valid e) =>
    if is_expired now e.cached_at then (none, none)
    else (some e, some (CacheFile.valid e))

/-! Display formatter pipeline (src/display/formatter.rs). -/

/-- One ANSI background-colored two-space block for a pixel. -/
def block_cell (r g b : Nat) : String :=
  "\x1b[48;2;" ++ toString r ++ ";" ++ toString g ++ ";" ++ toString b ++ "m  " ++ "\x1b[0m"

/-- Block-art lines, from `DisplayFormatter::image_to_block_lines`. -/
def image_to_block_lines (img : Image) : List String :=
  (List.range img.height).map (fun y =>
    (List.range img.width).foldl (fun line x =>
      let p := img.pix x y
      line ++ block_cell p.r p.g p.b) "")

/-- Row-major RGB grid, the pixel extraction loop of
`fetch_and_process_all_formats`. -/
def pixel_grid (img : Image) : List (List RGB) :=
  (List.range img.height).map (fun y =>
    (List.range img.width).map (fun x =>
      let p := img.pix x y
      (p.r, p.g, p.b)))

/-- Pipeline of `DisplayFormatter::fetch_and_process_all_formats` as a
function of its effect outcomes: the cache lookup result, the acquisition
step (download/open, decode and Lanczos resize — external collaborators,
modelled as an `Except` input carrying the resized image), and the outcome
of the cache write.  Returns the call result plus the list of `eprintln`
messages.  A failed write is logged and otherwise ignored, exactly as the
source `if let Err(e) = self.cache.set(..)`. -/
noncomputable def fetch_and_process_all_formats (cached : Option CachedImage)
    (acquired : Except String Image) (set_result : Except String Unit) :
    Except String (PixelatedImage × RatatuiImage × ColorPalette) × List String :=
  match cached with
  | some c => (Except.ok (c.pixelated, c.ratatui, c.color_palette), [])
  | none =>
    match acquired with
    | Except.error e => (Except.error e, [])
    | Except.ok resized =>
      let pixelated : PixelatedImage := ⟨image_to_block_lines resized⟩
      let ratatui : RatatuiImage := ⟨pixel_grid resized⟩
      let color_palette := extract_palette resized 3 5
      let log :=
        match set_result with
        | Except.error e => ["Failed to cache image: " ++ e]
        | Except.ok _ => []
      (Except.ok (pixelated, ratatui, color_palette), log)

/-! Directory maintenance (src/cache.rs `clear` and `size`). -/

/-- Directory entry: file name and byte size. -/
abbrev DirEntry := String × Nat

/-- Index of the last dot in a character list, if any. -/
def last_dot_idx (cs : List Char) : Option Nat :=
  (cs.zip (List.range cs.length)).foldl
    (fun acc ci => if ci.1 = '.' then some ci.2 else acc) none

/-- File extension in the sense of Rust `Path::extension`: the part after the
final dot, none when there is no dot or the only dot leads the name. -/
def path_extension (name : String) : Option String :=
  match last_dot_idx name.toList with
  | none => none
  | some 0 => none
  | some i => some (String.mk (name.toList.drop (i + 1)))

/-- The filter both `clear` and `size` apply to directory entries. -/
def is_json_file (e : DirEntry) : Bool := path_extension e.1 == some "json"

/-- Deletion of a named file from a directory. -/
def remove_file_named (fs : List DirEntry) (name : String) : List DirEntry :=
  fs.filter (fun e => !(e.1 == name))

/-- Loop of `ImageCache::clear`: walk the directory listing and delete every
entry with extension json. -/
def cache_clear_go (listing : List DirEntry) (fs : List DirEntry) : List DirEntry :=
  listing.foldl (fun fs e => if is_json_file e then remove_file_named fs e.1 else fs) fs

/-- Directory state after `ImageCache::clear`. -/
def cache_clear (fs : List DirEntry) : List DirEntry := cache_clear_go fs fs

/-- Total size computed by `ImageCache::size`: sum of the sizes of the json
entries. -/
def cache_size (fs : List DirEntry) : Nat :=
  fs.foldl (fun total e => if is_json_file e then total + e.2 else total) 0

/-! Concrete values used by witnesses. -/

/-- A 1×1 solid red image. -/
def sampleImage : Image := ⟨1, 1, fun _ _ => ⟨255, 0, 0, 255⟩⟩

/-- A minimal cache entry. -/
def sampleEntry : CachedImage := ⟨⟨[]⟩, ⟨[]⟩, ⟨[], []⟩, 0⟩

/-! ## Theorems -/

/-! ### Cache expiry (claim C3) -/

/-- C3: an entry is expired exactly when its age in whole days, the integer
division of `now - cached_at` by 86400, exceeds 30; an entry exactly
30*86400 seconds old is not expired, one 31 days old is expired, and a
future `cached_at` is never expired. -/
theorem C3_is_expired_spec :
    (∀ now cached_at : Nat,
      is_expired now cached_at = true ↔
        cached_at ≤ now ∧ CACHE_EXPIRY_DAYS < (now - cached_at) / 86400)
    ∧ is_expired (30 * 86400) 0 = false
    ∧ is_expired (31 * 86400) 0 = true
    ∧ (∀ now cached_at : Nat, now < cached_at → is_expired now cached_at = false) := by
  refine ⟨fun now cached_at => ?_, by decide, by decide, fun now cached_at h => ?_⟩
  · rw [is_expired]
    split
    · next h => simp; omega
    · next h => simp [CACHE_EXPIRY_DAYS]; omega
  · rw [is_expired, if_pos h]

/-- Witness for C3: a concrete future timestamp is not expired. -/
theorem C3_witness : (0 : Nat) < 5 ∧ is_expired 0 5 = false :=
  ⟨by norm_num, C3_is_expired_spec.2.2.2 0 5 (by norm_num)⟩

/-! ### Cache lookup (claim C2) -/

/-- C2 counterexample: a cache file that exists but is unreadable makes `get`
return absent, yet the file is NOT deleted — the claim says every failing
existing file is deleted. -/
theorem C2_counterexample :
    cache_get (some CacheFile.unreadable) 0 = (none, some CacheFile.unreadable)
    ∧ some CacheFile.unreadable ≠ (none : Option CacheFile) :=
  ⟨rfl, by simp⟩

/-- C2 (amended): `get` returns the entry exactly when the file holds a
parseable, unexpired entry; a parse failure or an expired entry is a miss
that deletes the file; an unreadable file is a miss that leaves the file in
place; a missing file is a plain miss. -/
theorem C2_cache_get_spec (file : Option CacheFile) (now : Nat) :
    (∀ e : CachedImage,
      (cache_get file now).1 = some e ↔
        file = some (CacheFile.valid e) ∧ is_expired now e.cached_at = false)
    ∧ (∀ s, file = some (CacheFile.malformed s) → cache_get file now = (none, none))
    ∧ (∀ e : CachedImage, file = some (CacheFile.valid e) →
        is_expired now e.cached_at = true → cache_get file now = (none, none))
    ∧ (file = some CacheFile.unreadable → cache_get file now = (none, file))
    ∧ (file = none → cache_get file now = (none, none)) := by
  refine ⟨fun e => ?_, fun s hf => ?_, fun e hf hexp => ?_, fun hf => ?_, fun hf => ?_⟩
  · constructor
    · intro h
      match file with
      | none => simp [cache_get] at h
      | some CacheFile.unreadable => simp [cache_get] at h
      | some (CacheFile.malformed s) => simp [cache_get] at h
      | some (CacheFile.valid e2) =>
        rw [cache_get] at h
        by_cases hexp : is_expired now e2.cached_at = true
        · rw [if_pos hexp] at h; simp at h
        · rw [if_neg hexp] at h
          simp at h
          subst h
          exact ⟨rfl, by simpa using hexp⟩
    · rintro ⟨rfl, hexp⟩
      rw [cache_get, if_neg (by simp [hexp])]
  · subst hf; rfl
  · subst hf; rw [cache_get, if_pos hexp]
  · subst hf; rfl
  · subst hf; rfl

/-- Witness for C2: a concrete malformed file is a miss and gets deleted. -/
theorem C2_witness : cache_get (some (CacheFile.malformed "bad")) 0 = (none, none) :=
  (C2_cache_get_spec (some (CacheFile.malformed "bad")) 0).2.1 "bad" rfl

/-! ### Formatter pipeline (claim C9) -/

/-- C9: when the pipeline recomputes the artifacts and the final cache write
fails, the failure is only logged and the call still returns Ok with the
freshly computed triple; the cache-write outcome never changes the returned
value. -/
theorem C9_set_failure_nonfatal :
    (∀ (resized : Image) (e : String),
      fetch_and_process_all_formats none (Except.ok resized) (Except.error e)
        = (Except.ok (⟨image_to_block_lines resized⟩, ⟨pixel_grid resized⟩,
            extract_palette resized 3 5), ["Failed to cache image: " ++ e]))
    ∧ (∀ cached acquired s1 s2,
      (fetch_and_process_all_formats cached acquired s1).1
        = (fetch_and_process_all_formats cached acquired s2).1) := by
  refine ⟨fun resized e => rfl, fun cached acquired s1 s2 => ?_⟩
  match cached with
  | some c => rfl
  | none =>
    match acquired with
    | Except.error e => rfl
    | Except.ok resized => rfl

/-! ### Directory maintenance (claim C10) -/

theorem cache_clear_go_eq (listing : List DirEntry) : ∀ fs : List DirEntry,
    cache_clear_go listing fs
      = fs.filter (fun e => !(listing.any (fun d => is_json_file d && e.1 == d.1))) := by
  induction listing with
  | nil => intro fs; simp [cache_clear_go]
  | cons d rest ih =>
    intro fs
    have hstep : cache_clear_go (d :: rest) fs
        = cache_clear_go rest (if is_json_file d then remove_file_named fs d.1 else fs) := by
      rw [cache_clear_go, cache_clear_go, List.foldl_cons]
    rw [hstep]
    by_cases hd : is_json_file d
    · rw [if_pos hd, ih, remove_file_named, List.filter_filter]
      apply List.filter_congr
      intro e _
      cases he : (e.1 == d.1) <;> simp [List.any_cons, hd, he]
    · rw [if_neg hd, ih]
      apply List.filter_congr
      intro e _
      simp [List.any_cons, hd]

theorem cache_clear_eq (fs : List DirEntry) :
    cache_clear fs = fs.filter (fun e => !is_json_file e) := by
  rw [cache_clear, cache_clear_go_eq]
  apply List.filter_congr
  intro e he
  by_cases hj : is_json_file e
  · have hany : fs.any (fun d => is_json_file d && e.1 == d.1) = true :=
      List.any_eq_true.mpr ⟨e, he, by simp [hj]⟩
    rw [hany, hj]
  · have hany : fs.any (fun d => is_json_file d && e.1 == d.1) = false := by
      rw [List.any_eq_false]
      intro d _
      intro hcontra
      rw [Bool.and_eq_true] at hcontra
      have hname : e.1 = d.1 := by simpa using hcontra.2
      have : is_json_file e = true := by
        rw [is_json_file, hname]; exact hcontra.1
      exact hj this
    rw [hany]
    simp [hj]

theorem cache_size_go (fs : List DirEntry) : ∀ n : Nat,
    fs.foldl (fun total e => if is_json_file e then total + e.2 else total) n
      = n + ((fs.filter is_json_file).map (fun e => e.2)).sum := by
  induction fs with
  | nil => intro n; simp
  | cons e rest ih =>
    intro n
    rw [List.foldl_cons]
    by_cases hj : is_json_file e
    · rw [if_pos hj, ih, List.filter_cons_of_pos (by simpa using hj)]
      simp; omega
    · rw [if_neg hj, ih, List.filter_cons_of_neg (by simpa using hj)]

/-- C10: `clear` removes exactly the entries with extension json, preserving
every other entry (and their order), and `size` sums the byte sizes of
exactly the json entries. -/
theorem C10_clear_size (fs : List DirEntry) :
    cache_clear fs = fs.filter (fun e => !is_json_file e)
    ∧ cache_size fs = ((fs.filter is_json_file).map (fun e => e.2)).sum := by
  refine ⟨cache_clear_eq fs, ?_⟩
  rw [cache_size, cache_size_go]
  omega

/-! ### Real-exponent bounds

The WCAG linearisation raises values in [0, 1] to the power 2.4.  The bounds
below bracket such powers by integer powers, which norm_num can evaluate on
rationals. -/

theorem rpow_24_le_sq (x : ℝ) (h0 : 0 ≤ x) (h1 : x ≤ 1) : x ^ (2.4 : ℝ) ≤ x ^ (2 : ℕ) := by
  have h := Real.rpow_le_rpow_of_exponent_ge' h0 h1 (by norm_num : (0:ℝ) ≤ 2)
    (by norm_num : (2:ℝ) ≤ 2.4)
  calc x ^ (2.4 : ℝ) ≤ x ^ (2 : ℝ) := h
    _ = x ^ (2 : ℕ) := by
        rw [show (2 : ℝ) = ((2 : ℕ) : ℝ) by norm_num, Real.rpow_natCast]

theorem rpow_24_ge_cube (x : ℝ) (h0 : 0 ≤ x) (h1 : x ≤ 1) : x ^ (3 : ℕ) ≤ x ^ (2.4 : ℝ) := by
  have h := Real.rpow_le_rpow_of_exponent_ge' h0 h1 (by norm_num : (0:ℝ) ≤ 2.4)
    (by norm_num : (2.4:ℝ) ≤ 3)
  calc x ^ (3 : ℕ) = x ^ (3 : ℝ) := by
        rw [show (3 : ℝ) = ((3 : ℕ) : ℝ) by norm_num, Real.rpow_natCast]
    _ ≤ x ^ (2.4 : ℝ) := h

theorem rpow_24_le_sq_mul (x c : ℝ) (h0 : 0 ≤ x) (h1 : x ≤ 1) (hc : 0 ≤ c)
    (hx : x ≤ c ^ (4 : ℕ)) : x ^ (2.4 : ℝ) ≤ x ^ (2 : ℕ) * c := by
  by_cases hx0 : x = 0
  · subst hx0
    rw [Real.zero_rpow (by norm_num)]
    positivity
  · have hxpos : 0 < x := lt_of_le_of_ne h0 (Ne.symm hx0)
    have hsplit : x ^ (2.4 : ℝ) = x ^ (2 : ℝ) * x ^ (0.4 : ℝ) := by
      rw [← Real.rpow_add hxpos]; norm_num
    have h04 : x ^ (0.4 : ℝ) ≤ x ^ (0.25 : ℝ) :=
      Real.rpow_le_rpow_of_exponent_ge' h0 h1 (by norm_num) (by norm_num)
    have hq : x ^ (0.25 : ℝ) ≤ c := by
      have h1q : x ^ (0.25 : ℝ) ≤ (c ^ (4 : ℕ)) ^ (0.25 : ℝ) :=
        Real.rpow_le_rpow h0 hx (by norm_num)
      have h2q : (c ^ (4 : ℕ)) ^ (0.25 : ℝ) = c := by
        rw [← Real.rpow_natCast c 4, ← Real.rpow_mul hc]
        norm_num
      rw [h2q] at h1q
      exact h1q
    have h2nn : (0:ℝ) ≤ x ^ (2 : ℝ) := Real.rpow_nonneg h0 _
    calc x ^ (2.4 : ℝ) = x ^ (2 : ℝ) * x ^ (0.4 : ℝ) := hsplit
      _ ≤ x ^ (2 : ℝ) * c := by
          apply mul_le_mul_of_nonneg_left _ h2nn
          exact le_trans h04 hq
      _ = x ^ (2 : ℕ) * c := by
          rw [show (2 : ℝ) = ((2 : ℕ) : ℝ) by norm_num, Real.rpow_natCast]

/-! ### Luminance and contrast bounds -/

theorem srgb_to_linear_nonneg (v : ℝ) (h : 0 ≤ v) : 0 ≤ srgb_to_linear v := by
  rw [srgb_to_linear]
  split
  · positivity
  · apply Real.rpow_nonneg
    positivity

theorem srgb_to_linear_zero : srgb_to_linear 0 = 0 := by
  rw [srgb_to_linear, if_pos (by norm_num)]
  norm_num

theorem srgb_to_linear_one : srgb_to_linear 1 = 1 := by
  rw [srgb_to_linear, if_neg (by norm_num)]
  rw [show ((1:ℝ) + 0.055) / 1.055 = 1 by norm_num, Real.one_rpow]

theorem srgb_to_linear_le_sq (q : ℝ) (hq : 0.03928 < q) (hq1 : q ≤ 1) :
    srgb_to_linear q ≤ ((q + 0.055) / 1.055) ^ (2 : ℕ) := by
  rw [srgb_to_linear, if_neg (not_le.mpr hq)]
  exact rpow_24_le_sq _ (by positivity) (by rw [div_le_one (by norm_num)]; linarith)

theorem srgb_to_linear_le_sq_mul (q c : ℝ) (hq : 0.03928 < q) (hq1 : q ≤ 1) (hc : 0 ≤ c)
    (hx : (q + 0.055) / 1.055 ≤ c ^ (4 : ℕ)) :
    srgb_to_linear q ≤ ((q + 0.055) / 1.055) ^ (2 : ℕ) * c := by
  rw [srgb_to_linear, if_neg (not_le.mpr hq)]
  exact rpow_24_le_sq_mul _ _ (by positivity)
    (by rw [div_le_one (by norm_num)]; linarith) hc hx

theorem srgb_to_linear_ge_cube (q : ℝ) (hq : 0.03928 < q) (hq1 : q ≤ 1) :
    ((q + 0.055) / 1.055) ^ (3 : ℕ) ≤ srgb_to_linear q := by
  rw [srgb_to_linear, if_neg (not_le.mpr hq)]
  exact rpow_24_ge_cube _ (by positivity) (by rw [div_le_one (by norm_num)]; linarith)

theorem relative_luminance_nonneg (c : RGB) : 0 ≤ relative_luminance c := by
  rw [relative_luminance]
  have h1 := srgb_to_linear_nonneg ((c.1 : ℝ) / 255) (by positivity)
  have h2 := srgb_to_linear_nonneg ((c.2.1 : ℝ) / 255) (by positivity)
  have h3 := srgb_to_linear_nonneg ((c.2.2 : ℝ) / 255) (by positivity)
  linarith

theorem lum_black : relative_luminance (0, 0, 0) = 0 := by
  rw [relative_luminance]
  norm_num [srgb_to_linear_zero]

theorem contrast_black (c : RGB) :
    contrast_ratio c (0, 0, 0) = (relative_luminance c + 0.05) / 0.05 := by
  rw [contrast_ratio, lum_black]
  rw [max_eq_left (relative_luminance_nonneg c), min_eq_right (relative_luminance_nonneg c)]
  norm_num

theorem contrast_le_of_le (c1 c2 : RGB) (L : ℝ) (h1 : relative_luminance c1 ≤ L)
    (h2 : relative_luminance c2 ≤ L) : contrast_ratio c1 c2 ≤ (L + 0.05) / 0.05 := by
  rw [contrast_ratio]
  have hmin : (0.05 : ℝ) ≤ min (relative_luminance c1) (relative_luminance c2) + 0.05 := by
    have hmn : (0:ℝ) ≤ min (relative_luminance c1) (relative_luminance c2) :=
      le_min (relative_luminance_nonneg c1) (relative_luminance_nonneg c2)
    linarith
  have hmax : max (relative_luminance c1) (relative_luminance c2) + 0.05 ≤ L + 0.05 := by
    have := max_le h1 h2
    linarith
  have hLnn : (0 : ℝ) ≤ L + 0.05 := by
    have := relative_luminance_nonneg c1
    linarith
  exact div_le_div hLnn hmax (by norm_num) hmin

theorem contrast_ge_of (c1 c2 : RGB) (L U : ℝ) (hL : 0 ≤ L)
    (h1 : L ≤ relative_luminance c1) (h2 : relative_luminance c2 ≤ U) :
    (L + 0.05) / (U + 0.05) ≤ contrast_ratio c1 c2 := by
  rw [contrast_ratio]
  have hmax : L + 0.05 ≤ max (relative_luminance c1) (relative_luminance c2) + 0.05 := by
    have := le_max_left (relative_luminance c1) (relative_luminance c2)
    linarith
  have hmin : min (relative_luminance c1) (relative_luminance c2) + 0.05 ≤ U + 0.05 := by
    have := min_le_right (relative_luminance c1) (relative_luminance c2)
    linarith
  have hminpos : (0 : ℝ) < min (relative_luminance c1) (relative_luminance c2) + 0.05 := by
    have hmn : (0:ℝ) ≤ min (relative_luminance c1) (relative_luminance c2) :=
      le_min (relative_luminance_nonneg c1) (relative_luminance_nonneg c2)
    linarith
  have hmaxnn : (0 : ℝ) ≤ max (relative_luminance c1) (relative_luminance c2) + 0.05 := by
    have := le_max_left (relative_luminance c1) (relative_luminance c2)
    have := relative_luminance_nonneg c1
    linarith
  exact div_le_div hmaxnn hmax hminpos hmin

/-! ### Concrete luminance values and bounds -/

theorem lum_bg_le : relative_luminance dark_bg ≤ 0.0096 := by
  have h := srgb_to_linear_le_sq_mul ((20:ℝ)/255) 0.597 (by norm_num) (by norm_num)
    (by norm_num) (by norm_num)
  have hval : ((((20:ℝ)/255) + 0.055) / 1.055) ^ (2:ℕ) * 0.597 ≤ 0.0096 := by norm_num
  rw [dark_bg, relative_luminance]
  push_cast
  linarith

theorem lum_d10_le : relative_luminance (10, 10, 10) ≤ 0.0096 := by
  have h : srgb_to_linear ((10:ℝ)/255) = ((10:ℝ)/255) / 12.92 := by
    rw [srgb_to_linear, if_pos (by norm_num)]
  rw [relative_luminance]
  push_cast
  rw [h]
  norm_num

theorem lum_white : relative_luminance (255, 255, 255) = 1 := by
  rw [relative_luminance]
  push_cast
  rw [show (255:ℝ)/255 = 1 by norm_num, srgb_to_linear_one]
  norm_num

theorem lum_green255 : relative_luminance (0, 255, 0) = 0.7152 := by
  rw [relative_luminance]
  push_cast
  rw [show (0:ℝ)/255 = 0 by norm_num, show (255:ℝ)/255 = 1 by norm_num,
    srgb_to_linear_zero, srgb_to_linear_one]
  norm_num

theorem lum_blue255 : relative_luminance (0, 0, 255) = 0.0722 := by
  rw [relative_luminance]
  push_cast
  rw [show (0:ℝ)/255 = 0 by norm_num, show (255:ℝ)/255 = 1 by norm_num,
    srgb_to_linear_zero, srgb_to_linear_one]
  norm_num

theorem lum_green230_ge : (0.4:ℝ) ≤ relative_luminance (0, 230, 0) := by
  have h := srgb_to_linear_ge_cube ((230:ℝ)/255) (by norm_num) (by norm_num)
  have hval : (0.56:ℝ) ≤ ((((230:ℝ)/255) + 0.055) / 1.055) ^ (3:ℕ) := by norm_num
  have h0 := srgb_to_linear_nonneg ((0:ℝ)/255) (by norm_num)
  rw [relative_luminance]
  push_cast
  linarith

theorem lum_green210_ge : (0.05:ℝ) ≤ relative_luminance (0, 210, 0) := by
  have h := srgb_to_linear_ge_cube ((210:ℝ)/255) (by norm_num) (by norm_num)
  have hval : (0.5:ℝ) ≤ ((((210:ℝ)/255) + 0.055) / 1.055) ^ (3:ℕ) := by norm_num
  have h0 := srgb_to_linear_nonneg ((0:ℝ)/255) (by norm_num)
  rw [relative_luminance]
  push_cast
  linarith

theorem lum_blue200_le : relative_luminance (0, 0, 200) ≤ 0.0458 := by
  have h := srgb_to_linear_le_sq ((200:ℝ)/255) (by norm_num) (by norm_num)
  have hval : ((((200:ℝ)/255) + 0.055) / 1.055) ^ (2:ℕ) * 0.0722 ≤ 0.0458 := by norm_num
  have h0 : srgb_to_linear ((0:ℝ)/255) = 0 := by
    rw [show (0:ℝ)/255 = 0 by norm_num, srgb_to_linear_zero]
  rw [relative_luminance]
  push_cast
  rw [h0]
  nlinarith

theorem srgb_to_linear_ge_100 (v : Nat) (h1 : 100 ≤ v) (h2 : v ≤ 255) :
    (0.076:ℝ) ≤ srgb_to_linear ((v:ℝ)/255) := by
  have hvl : (100:ℝ) ≤ (v:ℝ) := by exact_mod_cast h1
  have hvu : (v:ℝ) ≤ 255 := by exact_mod_cast h2
  have hq : (0.03928:ℝ) < (v:ℝ)/255 := by linarith
  have hq1 : (v:ℝ)/255 ≤ 1 := by linarith
  have hcube := srgb_to_linear_ge_cube ((v:ℝ)/255) hq hq1
  have hbase : (((100:ℝ)/255) + 0.055) / 1.055 ≤ (((v:ℝ)/255) + 0.055) / 1.055 := by
    rw [div_le_div_iff_of_pos_right (by norm_num)]
    have : (100:ℝ)/255 ≤ (v:ℝ)/255 := by
      rw [div_le_div_iff_of_pos_right (by norm_num)]
      exact hvl
    linarith
  have hmono : ((((100:ℝ)/255) + 0.055) / 1.055) ^ (3:ℕ)
      ≤ ((((v:ℝ)/255) + 0.055) / 1.055) ^ (3:ℕ) := by
    apply pow_le_pow_left (by norm_num) hbase
  have hval : (0.076:ℝ) ≤ ((((100:ℝ)/255) + 0.055) / 1.055) ^ (3:ℕ) := by norm_num
  linarith

theorem lum_ge_of_channels (r g b : Nat) (hr1 : 100 ≤ r) (hr2 : r ≤ 255)
    (hg1 : 100 ≤ g) (hg2 : g ≤ 255) (hb1 : 100 ≤ b) (hb2 : b ≤ 255) :
    (0.05:ℝ) ≤ relative_luminance (r, g, b) := by
  have h1 := srgb_to_linear_ge_100 r hr1 hr2
  have h2 := srgb_to_linear_ge_100 g hg1 hg2
  have h3 := srgb_to_linear_ge_100 b hb1 hb2
  rw [relative_luminance]
  linarith

/-! ### Acceptance-test values -/

theorem pass_info_iff (c : RGB) : pass_info c = true ↔ (7:ℝ) ≤ contrast_ratio c dark_bg := by
  rw [pass_info]
  exact decide_eq_true_iff

theorem pass_info_white : pass_info (255, 255, 255) = true := by
  refine (pass_info_iff _).mpr ?_
  have h := contrast_ge_of (255,255,255) dark_bg 1 0.0096 (by norm_num)
    (le_of_eq lum_white.symm) lum_bg_le
  have hv : (7:ℝ) ≤ (1 + 0.05) / (0.0096 + 0.05) := by norm_num
  linarith

theorem pass_info_green230 : pass_info (0, 230, 0) = true := by
  refine (pass_info_iff _).mpr ?_
  have h := contrast_ge_of (0,230,0) dark_bg 0.4 0.0096 (by norm_num) lum_green230_ge lum_bg_le
  have hv : (7:ℝ) ≤ (0.4 + 0.05) / (0.0096 + 0.05) := by norm_num
  linarith

theorem pass_info_green255 : pass_info (0, 255, 0) = true := by
  refine (pass_info_iff _).mpr ?_
  have h := contrast_ge_of (0,255,0) dark_bg 0.7152 0.0096 (by norm_num)
    (le_of_eq lum_green255.symm) lum_bg_le
  have hv : (7:ℝ) ≤ (0.7152 + 0.05) / (0.0096 + 0.05) := by norm_num
  linarith

theorem pass_info_blue255 : pass_info (0, 0, 255) = false := by
  apply decide_eq_false
  rw [not_le]
  have h := contrast_le_of_le (0,0,255) dark_bg 0.0722 (le_of_eq lum_blue255)
    (le_trans lum_bg_le (by norm_num))
  have hv : ((0.0722:ℝ) + 0.05) / 0.05 < 7 := by norm_num
  linarith

theorem pass_info_d20 : pass_info (20, 20, 20) = false := by
  apply decide_eq_false
  rw [not_le]
  have h := contrast_le_of_le (20,20,20) dark_bg 0.0096 lum_bg_le lum_bg_le
  have hv : ((0.0096:ℝ) + 0.05) / 0.05 < 7 := by norm_num
  linarith

theorem pass_info_d10 : pass_info (10, 10, 10) = false := by
  apply decide_eq_false
  rw [not_le]
  have h := contrast_le_of_le (10,10,10) dark_bg 0.0096 lum_d10_le lum_bg_le
  have hv : ((0.0096:ℝ) + 0.05) / 0.05 < 7 := by norm_num
  linarith

/-! ### Progress post-processing values -/

theorem fix_blue200 : fix_progress (0, 0, 200) = (100, 100, 255) := by
  rw [fix_progress, if_pos]
  · rfl
  · rw [contrast_black]
    rw [div_lt_iff (by norm_num)]
    linarith [lum_blue200_le]

theorem fix_green210 : fix_progress (0, 210, 0) = (0, 210, 0) := by
  rw [fix_progress, if_neg]
  rw [not_lt, contrast_black, le_div_iff (by norm_num)]
  linarith [lum_green210_ge]

theorem fix_green255 : fix_progress (0, 255, 0) = (0, 255, 0) := by
  rw [fix_progress, if_neg]
  rw [not_lt, contrast_black, le_div_iff (by norm_num)]
  have := lum_green255
  linarith

/-! ### Claim C4: progress colors keep contrast at least 2 against black -/

theorem fix_progress_contrast (c : RGB) : (2:ℝ) ≤ contrast_ratio (fix_progress c) (0, 0, 0) := by
  rw [fix_progress]
  split
  · next h =>
    rw [contrast_black]
    have hlum := lum_ge_of_channels (min (c.1 + 100) 255) (min (c.2.1 + 100) 255)
      (min (c.2.2 + 100) 255) (by omega) (by omega) (by omega) (by omega) (by omega) (by omega)
    rw [le_div_iff (by norm_num)]
    linarith
  · next h => exact le_of_not_lt h

theorem select_progress_contrast (colors0 : List RGB) (ic : Nat) :
    List.Forall (fun c => (2:ℝ) ≤ contrast_ratio c (0, 0, 0))
      ((select_palette colors0 ic).progress_colors) := by
  have hp : (select_palette colors0 ic).progress_colors
      = (select_progress_base (sort_by_brightness colors0)).map fix_progress := rfl
  rw [hp, List.forall_iff_forall_mem]
  intro x hx
  rcases List.mem_map.1 hx with ⟨y, _, rfl⟩
  exact fix_progress_contrast y

/-- C4: every progress color of the palette returned by `extract_palette` has
WCAG contrast ratio at least 2.0 against pure black, thanks to the
post-processing that adds 100 (clamped at 255) to each channel of any color
below that contrast. -/
theorem C4_progress_contrast (img : Image) (progress_count info_count : Nat) :
    List.Forall (fun c => (2:ℝ) ≤ contrast_ratio c (0, 0, 0))
      ((extract_palette img progress_count info_count).progress_colors) :=
  select_progress_contrast _ _

/-! ### Characterisation of the info-color selection loops -/

theorem info_stage1_eq : ∀ (rest acc : List RGB) (ic : Nat), acc.length < ic →
    info_stage1 rest ic acc = acc ++ (rest.filter pass_info).take (ic - acc.length) := by
  intro rest
  induction rest with
  | nil => intro acc ic h; simp [info_stage1]
  | cons c rest ih =>
    intro acc ic h
    simp only [info_stage1]
    by_cases hp : pass_info c = true
    · rw [if_pos hp]
      by_cases hic : ic ≤ acc.length + 1
      · rw [if_pos hic]
        have hic2 : ic - acc.length = 1 := by omega
        rw [List.filter_cons_of_pos hp, hic2, List.take_succ_cons, List.take_zero]
      · rw [if_neg hic]
        rw [ih (acc ++ [c]) ic (by simp; omega)]
        rw [List.filter_cons_of_pos hp]
        have hstep : ic - acc.length = (ic - (acc ++ [c]).length) + 1 := by simp; omega
        rw [hstep, List.take_succ_cons]
        simp
    · rw [if_neg hp, ih acc ic h, List.filter_cons_of_neg (by simpa using hp)]

theorem info_stage1_zero : ∀ rest : List RGB,
    info_stage1 rest 0 [] = (rest.filter pass_info).take 1 := by
  intro rest
  induction rest with
  | nil => simp [info_stage1]
  | cons c rest ih =>
    simp only [info_stage1]
    by_cases hp : pass_info c = true
    · rw [if_pos hp, if_pos (by simp), List.filter_cons_of_pos hp, List.take_succ_cons,
        List.take_zero, List.nil_append]
    · rw [if_neg hp, ih, List.filter_cons_of_neg (by simpa using hp)]

theorem info_stage1_nil_eq (rest : List RGB) (ic : Nat) :
    info_stage1 rest ic [] = (rest.filter pass_info).take (max ic 1) := by
  cases ic with
  | zero => rw [info_stage1_zero]; norm_num
  | succ n =>
    rw [info_stage1_eq rest [] (n + 1) (by simp)]
    have hmax : max (n + 1) 1 = n + 1 := by omega
    rw [hmax]
    simp

theorem info_stage2_eq : ∀ (rest acc : List RGB) (ic : Nat), acc.length < ic →
    info_stage2 rest ic acc
      = acc ++ (rest.map (fun c => ensure_min_brightness c 180)).take (ic - acc.length) := by
  intro rest
  induction rest with
  | nil => intro acc ic h; simp [info_stage2]
  | cons c rest ih =>
    intro acc ic h
    simp only [info_stage2]
    by_cases hic : ic ≤ acc.length + 1
    · rw [if_pos hic]
      have hic2 : ic - acc.length = 1 := by omega
      rw [List.map_cons, hic2, List.take_succ_cons, List.take_zero]
    · rw [if_neg hic]
      rw [ih (acc ++ [ensure_min_brightness c 180]) ic (by simp; omega)]
      rw [List.map_cons]
      have hstep : ic - acc.length = (ic - (acc ++ [ensure_min_brightness c 180]).length) + 1 := by
        simp; omega
      rw [hstep, List.take_succ_cons]
      simp

theorem info_fallback_go_eq : ∀ (fuel ic : Nat) (acc : List RGB), fuel = ic - acc.length →
    info_fallback_go ic fuel acc = acc ++ (info_defaults.drop acc.length).take fuel := by
  intro fuel
  induction fuel with
  | zero => intro ic acc h; simp [info_fallback_go]
  | succ fuel ih =>
    intro ic acc h
    simp only [info_fallback_go]
    have hlt : acc.length < ic := by omega
    rw [if_pos hlt]
    cases hd : info_defaults[acc.length]? with
    | none =>
      have hle : info_defaults.length ≤ acc.length := by
        by_contra hcon
        rw [List.getElem?_eq_getElem (by omega)] at hd
        simp at hd
      show acc = acc ++ (info_defaults.drop acc.length).take (fuel + 1)
      rw [List.drop_eq_nil_of_le hle]
      simp
    | some c =>
      have hlen : acc.length < info_defaults.length := by
        by_contra hcon
        rw [List.getElem?_eq_none (by omega)] at hd
        simp at hd
      have hc : info_defaults[acc.length] = c := by
        rw [List.getElem?_eq_getElem hlen] at hd
        simpa using hd
      have hdrop : info_defaults.drop acc.length
          = c :: info_defaults.drop (acc.length + 1) := by
        rw [List.drop_eq_getElem_cons hlen, hc]
      show info_fallback_go ic fuel (acc ++ [c])
          = acc ++ (info_defaults.drop acc.length).take (fuel + 1)
      rw [ih ic (acc ++ [c]) (by simp; omega)]
      rw [hdrop, List.take_succ_cons]
      simp

theorem info_fallback_eq (ic : Nat) (acc : List RGB) :
    info_fallback ic acc = acc ++ (info_defaults.drop acc.length).take (ic - acc.length) :=
  info_fallback_go_eq _ ic acc rfl

theorem info_closed_form_eq (colors0 : List RGB) (ic : Nat) :
    (select_palette colors0 ic).info_colors = info_closed_form colors0 ic := by
  have h0 : (select_palette colors0 ic).info_colors
      = info_fallback ic
          (if (info_stage1 (sort_by_brightness colors0).reverse ic []).length < ic then
            info_stage2
              ((sort_by_brightness colors0).reverse.drop
                (info_stage1 (sort_by_brightness colors0).reverse ic []).length)
              ic (info_stage1 (sort_by_brightness colors0).reverse ic [])
          else info_stage1 (sort_by_brightness colors0).reverse ic []) := rfl
  rw [h0, info_stage1_nil_eq]
  simp only [info_closed_form]
  by_cases h : (((sort_by_brightness colors0).reverse.filter pass_info).take (max ic 1)).length
      < ic
  · rw [if_pos h, if_pos h, info_stage2_eq _ _ _ h, info_fallback_eq]
  · rw [if_neg h, if_neg h, info_fallback_eq]

theorem select_info_length (colors0 : List RGB) (ic : Nat) (h1 : 1 ≤ ic)
    (hlen : ic ≤ colors0.length) : (select_palette colors0 ic).info_colors.length = ic := by
  rw [info_closed_form_eq]
  simp only [info_closed_form]
  have hrevlen : (sort_by_brightness colors0).reverse.length = colors0.length := by
    rw [List.length_reverse]
    exact (List.perm_insertionSort brightness_le colors0).length_eq
  have hf : ((sort_by_brightness colors0).reverse.filter pass_info).length
      ≤ (sort_by_brightness colors0).reverse.length := List.length_filter_le _ _
  have hdef : info_defaults.length = 5 := rfl
  by_cases h : (((sort_by_brightness colors0).reverse.filter pass_info).take (max ic 1)).length
      < ic
  · rw [if_pos h]
    rw [List.length_take] at h
    simp only [List.length_append, List.length_take, List.length_map, List.length_drop, hdef,
      hrevlen]
    omega
  · rw [if_neg h]
    rw [List.length_take] at h
    simp only [List.length_append, List.length_take, List.length_drop, hdef]
    omega

/-! ### Claim C7: the second info stage skips by count, not by acceptance -/

/-- C7 (amended): stage 2 does not walk exactly the unaccepted candidates; it
walks the reversed brightness-sorted candidates with the first `a` entries
dropped, where `a` is the number accepted by stage 1.  These coincide with
the unaccepted candidates only when the accepted ones are exactly the `a`
brightest.  The info colors always equal this closed form: stage 1 keeps the
passing candidates brightest-first (capped at `info_count`, or at one
candidate when `info_count = 0`), stage 2 appends brightened candidates from
position `a` of the reversed order, and the static defaults fill any
remainder. -/
theorem C7_info_stage2_skip (colors0 : List RGB) (info_count : Nat) :
    (select_palette colors0 info_count).info_colors = info_closed_form colors0 info_count :=
  info_closed_form_eq colors0 info_count

/-! ### k-means length lemmas and claim C6 -/

theorem length_foldl_of_step {α β : Type} (step : List α → β → List α)
    (hstep : ∀ acc x, (step acc x).length = acc.length + 1) :
    ∀ (l : List β) (init : List α), (l.foldl step init).length = init.length + l.length := by
  intro l
  induction l with
  | nil => intro init; simp
  | cons a l ih =>
    intro init
    rw [List.foldl_cons, ih, hstep, List.length_cons]
    omega

theorem initialize_centroids_length (pixels : List Lab) (k : Nat) :
    (initialize_centroids pixels k).length = (k - 1) + 1 := by
  rw [initialize_centroids]
  rw [length_foldl_of_step _ (fun acc x => by simp)]
  simp [Nat.add_comm]

theorem update_centroids_length (pixels : List Lab) (assignments : List Nat)
    (centroids : List Lab) :
    (update_centroids pixels assignments centroids).length = centroids.length := by
  rw [update_centroids]
  simp

theorem kmeans_iter_length : ∀ (fuel : Nat) (pixels : List Lab) (centroids : List Lab)
    (assignments : List Nat),
    (kmeans_iter fuel pixels centroids assignments).length = centroids.length := by
  intro fuel
  induction fuel with
  | zero => intro pixels centroids assignments; rfl
  | succ fuel ih =>
    intro pixels centroids assignments
    simp only [kmeans_iter]
    split
    · rfl
    · rw [ih, update_centroids_length]

theorem k_means_clustering_length (pixels : List Lab) (k : Nat) :
    (k_means_clustering pixels k).length = if pixels.isEmpty then k else (k - 1) + 1 := by
  rw [k_means_clustering]
  by_cases h : pixels.isEmpty
  · rw [if_pos h, if_pos h, List.length_replicate]
  · rw [if_neg h, if_neg h, List.length_map, kmeans_iter_length, initialize_centroids_length]

/-- C6 (amended): the clustering returns exactly k colors whenever k ≥ 1, and
k copies of mid-gray on empty input; but for k = 0 with a nonempty sample it
returns one color, not zero (the first centroid is pushed before the `1..k`
loop). -/
theorem C6_k_means_shape (pixels : List Lab) (k : Nat) :
    (1 ≤ k → (k_means_clustering pixels k).length = k)
    ∧ (pixels = [] → k_means_clustering pixels k = List.replicate k (128, 128, 128))
    ∧ (pixels ≠ [] → (k_means_clustering pixels k).length = max k 1) := by
  refine ⟨fun hk => ?_, fun hp => ?_, fun hp => ?_⟩
  · rw [k_means_clustering_length]
    split <;> omega
  · subst hp; rfl
  · rw [k_means_clustering_length, if_neg (by simpa [List.isEmpty_iff] using hp)]
    omega

/-- Witness for C6: concrete empty-input and nonempty-input instances. -/
theorem C6_witness :
    (k_means_clustering [] 5).length = 5
    ∧ k_means_clustering [] 5 = List.replicate 5 (128, 128, 128)
    ∧ (k_means_clustering [lab0] 3).length = 3 :=
  ⟨(C6_k_means_shape [] 5).1 (by norm_num), (C6_k_means_shape [] 5).2.1 rfl,
    (C6_k_means_shape [lab0] 3).1 (by norm_num)⟩

/-- C6 counterexample: one sampled color and k = 0 yield 1 cluster color, not
0 as the claim requires for every target count. -/
theorem C6_counterexample :
    (k_means_clustering [lab0] 0).length = 1 ∧ (1 : Nat) ≠ 0 := by
  constructor
  · rw [k_means_clustering_length, if_neg (by simp)]
  · omega

/-! ### Claim C1: palette shape -/

/-- C1 (amended): for every image and every count pair with info_count ≥ 1,
`extract_palette` returns exactly 3 progress colors and exactly info_count
info colors.  (For info_count = 0 the info list can contain one color: the
source pushes an accepted candidate before checking the count.) -/
theorem C1_extract_palette_shape (img : Image) (progress_count info_count : Nat)
    (h : 1 ≤ info_count) :
    (extract_palette img progress_count info_count).progress_colors.length = 3
    ∧ (extract_palette img progress_count info_count).info_colors.length = info_count := by
  constructor
  · have hp : (extract_palette img progress_count info_count).progress_colors
        = (select_progress_base (sort_by_brightness
            (k_means_clustering (sample_pixels img)
              (progress_count + info_count + 2)))).map fix_progress := rfl
    rw [hp, List.length_map, select_progress_base]
    split <;> rfl
  · apply select_info_length _ _ h
    rw [k_means_clustering_length]
    split <;> omega

/-- Witness for C1: the shape at a concrete image and the nominal counts. -/
theorem C1_witness :
    (1 : Nat) ≤ 5
    ∧ (extract_palette sampleImage 3 5).progress_colors.length = 3
    ∧ (extract_palette sampleImage 3 5).info_colors.length = 5 :=
  ⟨by norm_num, (C1_extract_palette_shape sampleImage 3 5 (by norm_num)).1,
    (C1_extract_palette_shape sampleImage 3 5 (by norm_num)).2⟩

/-- C1 counterexample: with info_count = 0 and white cluster colors the
selection returns one info color, not zero. -/
theorem C1_counterexample :
    (select_palette [(255, 255, 255), (255, 255, 255)] 0).info_colors = [(255, 255, 255)]
    ∧ (select_palette [(255, 255, 255), (255, 255, 255)] 0).info_colors.length ≠ 0 := by
  have hval : (select_palette [(255, 255, 255), (255, 255, 255)] 0).info_colors
      = [(255, 255, 255)] := by
    rw [info_closed_form_eq]
    simp only [info_closed_form]
    rw [show (sort_by_brightness [(255, 255, 255), (255, 255, 255)]).reverse
        = [(255, 255, 255), (255, 255, 255)] from rfl]
    simp [List.filter_cons, pass_info_white]
  exact ⟨hval, by rw [hval]; simp⟩

/-! ### Claim C5: progress color ordering -/

theorem brightness_key_le (a b : RGB) (h : brightness_le a b) :
    calculate_brightness a ≤ calculate_brightness b := by
  rw [calculate_brightness, calculate_brightness,
    div_le_div_iff_of_pos_right (by norm_num : (0:ℝ) < 3 * 255)]
  have hk : (brightnessKey a : ℝ) ≤ (brightnessKey b : ℝ) := by exact_mod_cast h
  rw [brightnessKey, brightnessKey] at hk
  push_cast at hk
  linarith

theorem progress_base_chain (colors0 : List RGB) :
    List.Chain' (fun a b => calculate_brightness a ≤ calculate_brightness b)
      (select_progress_base (sort_by_brightness colors0)) := by
  have hsorted : List.Sorted brightness_le (sort_by_brightness colors0) :=
    List.sorted_insertionSort brightness_le colors0
  rw [select_progress_base]
  split
  · next h3 =>
    set l := sort_by_brightness colors0 with hl
    have h0 : (0 : Nat) < l.length := by omega
    have hmid : l.length / 2 < l.length := by omega
    have hlast : l.length - 1 < l.length := by omega
    have e0 : l.getD 0 (0, 0, 0) = l.get ⟨0, h0⟩ := by
      rw [List.getD_eq_getElem l (0, 0, 0) h0]; simp
    have e1 : l.getD (l.length / 2) (0, 0, 0) = l.get ⟨l.length / 2, hmid⟩ := by
      rw [List.getD_eq_getElem l (0, 0, 0) hmid]; simp
    have e2 : l.getD (l.length - 1) (0, 0, 0) = l.get ⟨l.length - 1, hlast⟩ := by
      rw [List.getD_eq_getElem l (0, 0, 0) hlast]; simp
    have r1 : brightness_le (l.get ⟨0, h0⟩) (l.get ⟨l.length / 2, hmid⟩) :=
      hsorted.rel_get_of_lt (by simp; omega)
    have r2 : brightness_le (l.get ⟨l.length / 2, hmid⟩) (l.get ⟨l.length - 1, hlast⟩) :=
      hsorted.rel_get_of_lt (by simp; omega)
    simp only [List.chain'_cons, List.chain'_singleton, and_true]
    rw [e0, e1, e2]
    exact ⟨brightness_key_le _ _ r1, brightness_key_le _ _ r2⟩
  · simp only [List.chain'_cons, List.chain'_singleton, and_true]
    rw [calculate_brightness, calculate_brightness, calculate_brightness]
    norm_num

/-- C5 (amended): the three progress colors are selected darkest to lightest
(the base selection from the brightness-sorted cluster colors has
non-decreasing channel-average brightness), and the palette returns exactly
that base after the contrast post-processing step — which can break the
ordering, as the counterexample shows. -/
theorem C5_progress_order (img : Image) (progress_count info_count : Nat) :
    List.Chain' (fun a b => calculate_brightness a ≤ calculate_brightness b)
      (select_progress_base (sort_by_brightness
        (k_means_clustering (sample_pixels img) (progress_count + info_count + 2))))
    ∧ (extract_palette img progress_count info_count).progress_colors
      = (select_progress_base (sort_by_brightness
          (k_means_clustering (sample_pixels img) (progress_count + info_count + 2)))).map
          fix_progress :=
  ⟨progress_base_chain _, rfl⟩

/-- C5 counterexample: cluster colors (0,0,200), (0,210,0), (0,255,0) are
sorted by brightness, but the post-processing lightens only the darkest one,
whose brightness then exceeds that of the second color — the returned
progress colors are not in non-decreasing brightness order. -/
theorem C5_counterexample :
    (select_palette [(0, 0, 200), (0, 210, 0), (0, 255, 0)] 0).progress_colors
        = [(100, 100, 255), (0, 210, 0), (0, 255, 0)]
    ∧ calculate_brightness ((0, 210, 0) : RGB)
        < calculate_brightness ((100, 100, 255) : RGB) := by
  constructor
  · have hp : (select_palette [(0, 0, 200), (0, 210, 0), (0, 255, 0)] 0).progress_colors
        = (select_progress_base (sort_by_brightness
            [(0, 0, 200), (0, 210, 0), (0, 255, 0)])).map fix_progress := rfl
    rw [hp]
    rw [show select_progress_base (sort_by_brightness [(0, 0, 200), (0, 210, 0), (0, 255, 0)])
        = [(0, 0, 200), (0, 210, 0), (0, 255, 0)] from rfl]
    rw [List.map_cons, List.map_cons, List.map_cons, List.map_nil,
      fix_blue200, fix_green210, fix_green255]
  · rw [calculate_brightness, calculate_brightness]
    norm_num

/-! ### Claim C7 counterexample -/

/-- C7 counterexample: with candidates (10,10,10), (20,20,20), (0,230,0),
(0,0,255) and info_count = 2, only (0,230,0) passes stage 1.  Stage 2 then
skips the single brightest candidate (0,0,255) — which was NOT accepted —
and brightens the already accepted (0,230,0) again, instead of brightening
the unaccepted (0,0,255) as the claim describes. -/
theorem C7_counterexample :
    (select_palette [(10, 10, 10), (20, 20, 20), (0, 230, 0), (0, 0, 255)] 2).info_colors
        = [(0, 230, 0), (90, 230, 90)]
    ∧ info_colors_claimed [(10, 10, 10), (20, 20, 20), (0, 230, 0), (0, 0, 255)] 2
        = [(0, 230, 0), (90, 90, 255)]
    ∧ (select_palette [(10, 10, 10), (20, 20, 20), (0, 230, 0), (0, 0, 255)] 2).info_colors
        ≠ info_colors_claimed [(10, 10, 10), (20, 20, 20), (0, 230, 0), (0, 0, 255)] 2 := by
  have hrev : (sort_by_brightness [(10, 10, 10), (20, 20, 20), (0, 230, 0), (0, 0, 255)]).reverse
      = [(0, 0, 255), (0, 230, 0), (20, 20, 20), (10, 10, 10)] := rfl
  have he1 : ensure_min_brightness (0, 230, 0) 180 = (90, 230, 90) := by
    rw [ensure_min_brightness, if_pos (by decide)]
    rfl
  have he2 : ensure_min_brightness (0, 0, 255) 180 = (90, 90, 255) := by
    rw [ensure_min_brightness, if_pos (by decide)]
    rfl
  have h1 : (select_palette [(10, 10, 10), (20, 20, 20), (0, 230, 0), (0, 0, 255)] 2).info_colors
      = [(0, 230, 0), (90, 230, 90)] := by
    rw [info_closed_form_eq]
    simp only [info_closed_form]
    rw [hrev]
    rw [show List.filter pass_info [(0, 0, 255), (0, 230, 0), (20, 20, 20), (10, 10, 10)]
        = [(0, 230, 0)] by
      simp [List.filter_cons, pass_info_blue255, pass_info_green230, pass_info_d20,
        pass_info_d10]]
    simp [List.take, List.drop, he1]
  have h2 : info_colors_claimed [(10, 10, 10), (20, 20, 20), (0, 230, 0), (0, 0, 255)] 2
      = [(0, 230, 0), (90, 90, 255)] := by
    simp only [info_colors_claimed]
    rw [hrev]
    rw [show List.filter pass_info [(0, 0, 255), (0, 230, 0), (20, 20, 20), (10, 10, 10)]
        = [(0, 230, 0)] by
      simp [List.filter_cons, pass_info_blue255, pass_info_green230, pass_info_d20,
        pass_info_d10]]
    rw [show List.filter (fun c => !pass_info c)
          [(0, 0, 255), (0, 230, 0), (20, 20, 20), (10, 10, 10)]
        = [(0, 0, 255), (20, 20, 20), (10, 10, 10)] by
      simp [List.filter_cons, pass_info_blue255, pass_info_green230, pass_info_d20,
        pass_info_d10]]
    simp [List.take, List.drop, he2]
  refine ⟨h1, h2, ?_⟩
  rw [h1, h2]
  simp

/-! ### Claim C8: ensure_min_brightness invariant -/

theorem fst3 (a b c : Nat) : ((a, b, c) : RGB).1 = a := rfl

theorem snd3 (a b c : Nat) : ((a, b, c) : RGB).2.1 = b := rfl

theorem thd3 (a b c : Nat) : ((a, b, c) : RGB).2.2 = c := rfl

/-- C8: for u8 inputs, `ensure_min_brightness` returns a color with at least
one channel at least min_value; a pure black input yields all three channels
equal to min_value exactly; and a non-black input with every channel below
min_value is scaled so that its maximum channel equals min_value. -/
theorem C8_ensure_min_brightness (c : RGB) (m : Nat) (hm : m ≤ 255) :
    (c = (0, 0, 0) → ensure_min_brightness c m = (m, m, m))
    ∧ (m ≤ (ensure_min_brightness c m).1 ∨ m ≤ (ensure_min_brightness c m).2.1
        ∨ m ≤ (ensure_min_brightness c m).2.2)
    ∧ (c ≠ (0, 0, 0) → c.1 < m → c.2.1 < m → c.2.2 < m →
        max (ensure_min_brightness c m).1
          (max (ensure_min_brightness c m).2.1 (ensure_min_brightness c m).2.2) = m) := by
  obtain ⟨r, g, b⟩ := c
  have hmain : ∀ v : Nat, v = max r (max g b) → v ≠ 0 → r < m → g < m → b < m →
      ensure_min_brightness (r, g, b) m
        = (trunc_u8 (r * ((m : ℝ) / v)), trunc_u8 (g * ((m : ℝ) / v)),
            trunc_u8 (b * ((m : ℝ) / v))) := by
    intro v hv hv0 hr hg hb
    rw [ensure_min_brightness]
    rw [if_neg (by simp only [fst3, snd3, thd3]; omega)]
    rw [if_neg (by simp only [fst3, snd3, thd3]; omega)]
    simp only [fst3, snd3, thd3]
    rw [← hv]
  have htr_max : ∀ v : Nat, v ≠ 0 → trunc_u8 (v * ((m : ℝ) / v)) = m := by
    intro v hv0
    have hvne : (v : ℝ) ≠ 0 := Nat.cast_ne_zero.mpr hv0
    have : (v : ℝ) * ((m : ℝ) / v) = m := by field_simp
    rw [trunc_u8, this, Int.floor_natCast, Int.toNat_natCast, min_eq_left hm]
  have htr_le : ∀ w v : Nat, w ≤ v → v ≠ 0 → trunc_u8 (w * ((m : ℝ) / v)) ≤ m := by
    intro w v hwv hv0
    have hvpos : (0 : ℝ) < v := by exact_mod_cast Nat.pos_of_ne_zero hv0
    have hle : (w : ℝ) * ((m : ℝ) / v) ≤ (v : ℝ) * ((m : ℝ) / v) := by
      apply mul_le_mul_of_nonneg_right (by exact_mod_cast hwv)
      positivity
    have heq : (v : ℝ) * ((m : ℝ) / v) = m := by field_simp
    rw [heq] at hle
    have hfl : ⌊(w : ℝ) * ((m : ℝ) / v)⌋ ≤ (m : ℤ) := by
      rw [show ((m : ℤ)) = ⌊(m : ℝ)⌋ by rw [Int.floor_natCast]]
      exact Int.floor_le_floor hle
    rw [trunc_u8]
    have h2 := Int.toNat_le_toNat hfl
    rw [Int.toNat_natCast] at h2
    exact le_trans (min_le_left _ _) h2
  refine ⟨fun hc => ?_, ?_, fun hc hr hg hb => ?_⟩
  · obtain ⟨hr, hg, hb⟩ : r = 0 ∧ g = 0 ∧ b = 0 := by
      simpa [Prod.ext_iff] using hc
    subst hr; subst hg; subst hb
    by_cases hm0 : m = 0
    · subst hm0
      rw [ensure_min_brightness, if_pos (by decide)]
      rfl
    · rw [ensure_min_brightness, if_neg (by simp only [fst3, snd3, thd3]; omega),
        if_pos (by decide)]
  · by_cases h1 : m ≤ r ∨ m ≤ g ∨ m ≤ b
    · rw [ensure_min_brightness, if_pos h1]
      rcases h1 with h | h | h
      · exact Or.inl (by simp only [fst3, snd3, thd3]; omega)
      · exact Or.inr (Or.inl (by simp only [fst3, snd3, thd3]; omega))
      · exact Or.inr (Or.inr (by simp only [fst3, snd3, thd3]; omega))
    · by_cases h2 : max r (max g b) = 0
      · have : r = 0 ∧ g = 0 ∧ b = 0 := by omega
        obtain ⟨hr, hg, hb⟩ := this
        subst hr; subst hg; subst hb
        rw [ensure_min_brightness, if_neg h1, if_pos (by decide)]
        exact Or.inl (by simp only [fst3, snd3, thd3]; omega)
      · push_neg at h1
        rw [hmain (max r (max g b)) rfl h2 (by omega) (by omega) (by omega)]
        have hm1 : r = max r (max g b) ∨ g = max r (max g b) ∨ b = max r (max g b) := by
          omega
        rcases hm1 with h | h | h
        · refine Or.inl ?_
          have heq : trunc_u8 (r * ((m:ℝ) / (max r (max g b)))) = m := by
            rw [show ((r:ℝ)) = ((max r (max g b) : Nat) : ℝ) by exact_mod_cast h]
            exact htr_max _ h2
          simp only [fst3, snd3, thd3]
          omega
        · refine Or.inr (Or.inl ?_)
          have heq : trunc_u8 (g * ((m:ℝ) / (max r (max g b)))) = m := by
            rw [show ((g:ℝ)) = ((max r (max g b) : Nat) : ℝ) by exact_mod_cast h]
            exact htr_max _ h2
          simp only [fst3, snd3, thd3]
          omega
        · refine Or.inr (Or.inr ?_)
          have heq : trunc_u8 (b * ((m:ℝ) / (max r (max g b)))) = m := by
            rw [show ((b:ℝ)) = ((max r (max g b) : Nat) : ℝ) by exact_mod_cast h]
            exact htr_max _ h2
          simp only [fst3, snd3, thd3]
          omega
  · have h2 : max r (max g b) ≠ 0 := by
      intro h0
      apply hc
      have : r = 0 ∧ g = 0 ∧ b = 0 := by omega
      simp [Prod.ext_iff, this.1, this.2.1, this.2.2]
    rw [hmain (max r (max g b)) rfl h2 hr hg hb]
    have hmx : r = max r (max g b) ∨ g = max r (max g b) ∨ b = max r (max g b) := by omega
    have hub1 := htr_le r (max r (max g b)) (by omega) h2
    have hub2 := htr_le g (max r (max g b)) (by omega) h2
    have hub3 := htr_le b (max r (max g b)) (by omega) h2
    rcases hmx with h | h | h
    · have heq : trunc_u8 (r * ((m:ℝ) / (max r (max g b)))) = m := by
        rw [show ((r:ℝ)) = ((max r (max g b) : Nat) : ℝ) by exact_mod_cast h]
        exact htr_max _ h2
      simp only [fst3, snd3, thd3]
      omega
    · have heq : trunc_u8 (g * ((m:ℝ) / (max r (max g b)))) = m := by
        rw [show ((g:ℝ)) = ((max r (max g b) : Nat) : ℝ) by exact_mod_cast h]
        exact htr_max _ h2
      simp only [fst3, snd3, thd3]
      omega
    · have heq : trunc_u8 (b * ((m:ℝ) / (max r (max g b)))) = m := by
        rw [show ((b:ℝ)) = ((max r (max g b) : Nat) : ℝ) by exact_mod_cast h]
        exact htr_max _ h2
      simp only [fst3, snd3, thd3]
      omega

/-- Witness for C8: the concrete proportional-scaling input from the test
suite, (50,100,25) with minimum 200. -/
theorem C8_witness :
    (50, 100, 25) ≠ ((0, 0, 0) : RGB)
    ∧ (200 ≤ (ensure_min_brightness (50, 100, 25) 200).1
        ∨ 200 ≤ (ensure_min_brightness (50, 100, 25) 200).2.1
        ∨ 200 ≤ (ensure_min_brightness (50, 100, 25) 200).2.2)
    ∧ max (ensure_min_brightness (50, 100, 25) 200).1
        (max (ensure_min_brightness (50, 100, 25) 200).2.1
          (ensure_min_brightness (50, 100, 25) 200).2.2) = 200 :=
  ⟨by simp, (C8_ensure_min_brightness (50, 100, 25) 200 (by norm_num)).2.1,
    (C8_ensure_min_brightness (50, 100, 25) 200 (by norm_num)).2.2 (by simp)
      (by norm_num) (by norm_num) (by norm_num)⟩

end Trackwatch
